import Mathlib

/- Verification of the Win32 threading back-end (src/win32/thread.c):
   address-wait (futex) fallback, thread records with cooperative
   cancellation, static mutexes, thread-local storage, clock-source
   selection and timers, shallowly embedded as pure Lean functions. -/

set_option linter.unusedVariables false

namespace Win32Thread

/-! ### Address waits: WaitOnAddressFallback -/

structure WaitResult where
  slept : Bool
  ret : Bool
deriving DecidableEq, Repr

/-- One call of WaitOnAddressFallback, sequential view.  The word stored at
the wait address is read back under the bucket lock with a sized atomic load
(`switch (size)`), compared with the expected word, and the caller sleeps on
the bucket condition variable only when the two are equal; otherwise `ret`
keeps its initial 0 and the call returns at once.  `memVal` is the word
currently stored at the address, `value` the expected word, `sleepOutcome`
the value SleepConditionVariableCS returns if it runs.  A size other than
1, 2, 4 or 8 hits vlc_assert_unreachable, modelled as `none`.  The C code
widens both sides of the comparison identically (sign extension included),
so equality of the widened values coincides with equality of the operands
modulo 2 ^ (8 * size). -/
def WaitOnAddressFallback (memVal value size : Nat) (sleepOutcome : Bool) :
    Option WaitResult :=
  if size = 1 ∨ size = 2 ∨ size = 4 ∨ size = 8 then
    if memVal % 2 ^ (8 * size) = value % 2 ^ (8 * size) then
      some ⟨true, sleepOutcome⟩
    else
      some ⟨false, false⟩
  else none

/-! ### Thread records and cooperative cancellation -/

/-- One `struct vlc_thread`.  Cleanup handlers are identified by opaque ids;
`cleaners` is the LIFO stack whose head is the most recently pushed handler.
`detached` models `th->id == NULL`; `data` is the entry result slot;
`waitAddr` is the registered wait address (NULL = `none`). -/
structure VlcThread where
  killable : Bool
  killed : Bool
  cleaners : List Nat
  data : Option Nat
  detached : Bool
  waitAddr : Option Nat
deriving DecidableEq, Repr

/-- Observable outcome of one vlc_testcancel call: the record afterwards
(`none` when there is no record or it was freed), the cleanup handlers that
ran in order, whether the record was freed, whether `_endthreadex` terminated
the calling thread, and the value of `killable` while the cleanup handlers
ran (`none` when cancellation did not take effect). -/
structure CancelOutcome where
  thread : Option VlcThread
  calls : List Nat
  freed : Bool
  terminated : Bool
  killableDuringCleanup : Option Bool
deriving DecidableEq, Repr

/-- vlc_testcancel: no record, not killable or not killed are no-ops.
Otherwise the code executes `th->killable = true` (sic — the comment next to
that store says it is meant to prevent re-entering the cleanup), walks the
cleanup stack from its head, clears the result slot, frees a detached record
and terminates the thread. -/
def vlc_testcancel (th : Option VlcThread) : CancelOutcome :=
  match th with
  | none => ⟨none, [], false, false, none⟩
  | some t =>
    if t.killable = false then ⟨some t, [], false, false, none⟩
    else if t.killed = false then ⟨some t, [], false, false, none⟩
    else
      let t1 : VlcThread := { t with killable := true }
      let t2 : VlcThread := { t1 with data := none }
      if t2.detached then ⟨none, t1.cleaners, true, true, some t1.killable⟩
      else ⟨some t2, t1.cleaners, false, true, some t1.killable⟩

/-- vlc_savecancel: returns the previous `killable` and clears it; with no
record it returns false and changes nothing. -/
def vlc_savecancel (th : Option VlcThread) : Bool × Option VlcThread :=
  match th with
  | none => (false, none)
  | some t => (t.killable, some { t with killable := false })

/-- vlc_restorecancel: with no record it returns at once; otherwise it
asserts `!th->killable` (assertion failure modelled as `Except.error`) and
stores the saved state back. -/
def vlc_restorecancel (state : Bool) (th : Option VlcThread) :
    Except Unit (Option VlcThread) :=
  match th with
  | none => Except.ok none
  | some t =>
    if t.killable then Except.error ()
    else Except.ok (some { t with killable := state })

/-- Commands of vlc_control_cancel. -/
inductive CancelCmd where
  | cleanupPush (handler : Nat)
  | cleanupPop
  | addrSet (addr : Nat)
  | addrClear (addr : Nat)
deriving DecidableEq, Repr

/-- vlc_control_cancel: with no record it returns before reading the
command.  Push links the handler at the head of the stack, pop unlinks the
head (a null dereference — modelled as an error — if the stack is empty),
addrSet stores the address under the record's wait lock, addrClear asserts
the registered address matches and clears it. -/
def vlc_control_cancel (cmd : CancelCmd) (th : Option VlcThread) :
    Except Unit (Option VlcThread) :=
  match th with
  | none => Except.ok none
  | some t =>
    match cmd with
    | CancelCmd.cleanupPush h =>
      Except.ok (some { t with cleaners := h :: t.cleaners })
    | CancelCmd.cleanupPop =>
      match t.cleaners with
      | [] => Except.error ()
      | _ :: rest => Except.ok (some { t with cleaners := rest })
    | CancelCmd.addrSet a => Except.ok (some { t with waitAddr := some a })
    | CancelCmd.addrClear a =>
      if t.waitAddr = some a then Except.ok (some { t with waitAddr := none })
      else Except.error ()

/-- `atomic_fetch_and_explicit(addr, -2, ...)` on a 32-bit atomic int:
the two's-complement mask -2 is 0xFFFFFFFE, so the store keeps bits 1..31
of the watched word and clears bit 0.  Stated arithmetically on the 32-bit
truncation so the definition reduces. -/
def wordAndMinusTwo (w : Nat) : Nat := w % 2 ^ 32 - w % 2 ^ 32 % 2

/-- Result of one vlc_cancel call: the target record, the memory afterwards
and the wait addresses on which vlc_addr_broadcast was issued. -/
structure CancelEffect where
  thread : VlcThread
  mem : Nat → Nat
  broadcasts : List Nat

/-- vlc_cancel: stores true into the target's `killed`, then under the
record's wait lock, if a wait address is registered, fetch-ands the watched
word with -2 and broadcasts on that address; the optional QueueUserAPC
interrupt touches no modelled state. -/
def vlc_cancel (t : VlcThread) (mem : Nat → Nat) : CancelEffect :=
  let t1 : VlcThread := { t with killed := true }
  match t1.waitAddr with
  | some a =>
    ⟨t1, fun x => if x = a then wordAndMinusTwo (mem x) else mem x, [a]⟩
  | none => ⟨t1, mem, []⟩

/-! ### C1: WaitOnAddressFallback does not sleep on a changed value -/

/-- C1: a call of WaitOnAddressFallback made while the value stored at the
address differs from the expected value returns immediately without sleeping
on the bucket condition variable, and it sleeps only when the value re-read
under the bucket lock still equals the expected one. -/
theorem C1_wait_no_sleep_when_value_differs (memVal value size : Nat)
    (so : Bool) (hsize : size = 1 ∨ size = 2 ∨ size = 4 ∨ size = 8) :
    (memVal % 2 ^ (8 * size) ≠ value % 2 ^ (8 * size) →
      WaitOnAddressFallback memVal value size so = some ⟨false, false⟩) ∧
    (∀ r, WaitOnAddressFallback memVal value size so = some r →
      r.slept = true → memVal % 2 ^ (8 * size) = value % 2 ^ (8 * size)) := by
  constructor
  · intro hne
    unfold WaitOnAddressFallback
    rw [if_pos hsize, if_neg hne]
  · intro r hr hslept
    by_contra hne
    unfold WaitOnAddressFallback at hr
    rw [if_pos hsize, if_neg hne] at hr
    have : r = ⟨false, false⟩ := by
      cases hr
      rfl
    rw [this] at hslept
    cases hslept

/-- C1 witness: at a 4-byte wait whose word holds 1 while 0 is expected, the
call returns at once without sleeping. -/
theorem C1_witness :
    WaitOnAddressFallback 1 0 4 true = some ⟨false, false⟩ :=
  (C1_wait_no_sleep_when_value_differs 1 0 4 true (by decide)).1 (by decide)

/-! ### C2: what vlc_cancel does to the watched word -/

/-- Input for the C2 counterexample: a thread registered on wait address 8
whose watched word holds 3 (both low-order bits set). -/
def c2Thread : VlcThread := ⟨true, false, [], some 0, false, some 8⟩

/-- Memory for the C2 counterexample: every word holds 3. -/
def c2Mem : Nat → Nat := fun _ => 3

/-- C2 counterexample: the claim says vlc_cancel clears the two low-order
bits of the watched word, so starting from 3 the result would be divisible
by 4; the code fetch-ands with -2, which clears only bit 0 (3 becomes 2),
so the second-lowest bit survives. -/
theorem C2_counterexample :
    ¬ (vlc_cancel c2Thread c2Mem).mem 8 % 4 = 0 := by decide

/-- C2 amended: vlc_cancel first sets the target's killed flag; then, under
the record's wait-address lock, if a wait address is registered it clears
the single low-order bit of the watched word (fetch-and with -2, keeping
bits 1..31 of the 32-bit word) and broadcasts a wake on that address, and
no other memory word is touched. -/
theorem C2_cancel_sets_killed_and_clears_low_bit (t : VlcThread)
    (mem : Nat → Nat) (a : Nat) (h : t.waitAddr = some a) :
    (vlc_cancel t mem).thread.killed = true ∧
    (vlc_cancel t mem).mem a % 2 = 0 ∧
    (vlc_cancel t mem).mem a / 2 = mem a % 2 ^ 32 / 2 ∧
    (∀ x, x ≠ a → (vlc_cancel t mem).mem x = mem x) ∧
    (vlc_cancel t mem).broadcasts = [a] := by
  cases t with
  | mk killable killed cleaners data detached waitAddr =>
    cases h
    have hmem : (vlc_cancel
        ⟨killable, killed, cleaners, data, detached, some a⟩ mem).mem a =
        wordAndMinusTwo (mem a) := by
      show (if a = a then wordAndMinusTwo (mem a) else mem a) =
        wordAndMinusTwo (mem a)
      rw [if_pos rfl]
    refine ⟨rfl, ?_, ?_, ?_, rfl⟩
    · rw [hmem]
      unfold wordAndMinusTwo
      omega
    · rw [hmem]
      unfold wordAndMinusTwo
      omega
    · intro x hx
      show (if x = a then wordAndMinusTwo (mem x) else mem x) = mem x
      rw [if_neg hx]

/-- C2 witness: cancelling a thread registered on address 8 whose word holds
3 sets killed, leaves an even word whose upper bits (here 1) survive, leaves
other words alone and broadcasts on address 8. -/
theorem C2_witness :
    (vlc_cancel c2Thread c2Mem).thread.killed = true ∧
    (vlc_cancel c2Thread c2Mem).mem 8 % 2 = 0 ∧
    (vlc_cancel c2Thread c2Mem).mem 8 / 2 = c2Mem 8 % 2 ^ 32 / 2 ∧
    (∀ x, x ≠ 8 → (vlc_cancel c2Thread c2Mem).mem x = c2Mem x) ∧
    (vlc_cancel c2Thread c2Mem).broadcasts = [8] :=
  C2_cancel_sets_killed_and_clears_low_bit c2Thread c2Mem 8 rfl

/-! ### C3: vlc_testcancel acting on a killed killable thread -/

/-- Failing input for C3: an attached thread, killable and killed, with two
pushed cleanup handlers and a pending result. -/
def c3Thread : VlcThread := ⟨true, true, [10, 20], some 7, false, none⟩

/-- C3, evaluated at the failing input: cancellation takes effect, the
cleanup stack is walked from its top (handler 10 pushed last, then 20), the
result slot is cleared and the attached record survives — but the code sets
`killable` to TRUE before walking the handlers, although its own comment
says the store is there so cleanup is not re-entered; the claim (and the
spec) say killable is set to false as a reentrancy guard. -/
theorem C3_killable_set_true_during_cleanup :
    (vlc_testcancel (some c3Thread)).killableDuringCleanup = some true ∧
    (vlc_testcancel (some c3Thread)).calls = [10, 20] ∧
    (vlc_testcancel (some c3Thread)).terminated = true ∧
    (vlc_testcancel (some c3Thread)).thread =
      some ⟨true, true, [10, 20], none, false, none⟩ := by
  decide

/-! ### C9: savecancel immediately followed by restorecancel -/

/-- C9: on a thread that has a record, vlc_savecancel (return the current
killable flag and clear it) immediately followed by vlc_restorecancel with
the returned state passes the restorecancel assertion and restores the
record exactly to its previous state — the pair is a no-op. -/
theorem C9_savecancel_restorecancel_noop (t : VlcThread) :
    vlc_restorecancel (vlc_savecancel (some t)).1 (vlc_savecancel (some t)).2 =
      Except.ok (some t) := by
  cases t with
  | mk killable killed cleaners data detached waitAddr =>
    rfl

/-! ### C10: the cancellation interface without a thread record -/

/-- C10: on a thread with no record (vlc_thread_self returns null) the
cancellation interface degrades to no-ops: vlc_testcancel runs no handler,
frees nothing and does not terminate; vlc_savecancel returns false and
changes nothing; vlc_restorecancel returns leaving nothing changed; and
vlc_control_cancel returns, for every command, without touching cleanup or
wait-address state. -/
theorem C10_no_record_noops (state : Bool) (cmd : CancelCmd) :
    vlc_testcancel none = ⟨none, [], false, false, none⟩ ∧
    vlc_savecancel none = (false, none) ∧
    vlc_restorecancel state none = Except.ok none ∧
    vlc_control_cancel cmd none = Except.ok none :=
  ⟨rfl, rfl, rfl, rfl⟩

/-! ### Static mutexes: the vlc_mutex_lock wait loop -/

/-- State of a static (non-dynamic) mutex: `locked` plus the `contention`
count of blocked waiters, both guarded by the global super_mutex. -/
structure StaticMutex where
  locked : Bool
  contention : Nat
deriving DecidableEq, Repr

/-- The `while (p_mutex->locked)` wait loop of vlc_mutex_lock on a static
mutex: each iteration increments `contention`, waits on super_variable and
decrements `contention` again.  `waits` counts the condition waits until
another thread releases the mutex.  Each wait is modelled as offering a
cancellation opportunity (vlc_testcancel on the caller) — more than the
code itself does, since the loop body never calls vlc_testcancel — and the
final Bool reports whether cancellation took effect during the loop. -/
def staticLockLoop : Nat → StaticMutex → Option VlcThread →
    StaticMutex × Option VlcThread × Bool
  | 0, m, th => (m, th, false)
  | Nat.succ w, m, th =>
    let m1 : StaticMutex := { m with contention := m.contention + 1 }
    let o := vlc_testcancel th
    let m2 : StaticMutex := { m1 with contention := m1.contention - 1 }
    if o.terminated then (m2, o.thread, true)
    else staticLockLoop w m2 o.thread

/-- vlc_mutex_lock on a static mutex: vlc_savecancel, the wait loop under
super_mutex, `locked := true`, then vlc_restorecancel with the saved state
(whose assertion failure would surface as `Except.error`).  The final Bool
reports whether cancellation terminated the caller inside the loop. -/
def vlc_mutex_lock_static (waits : Nat) (m : StaticMutex)
    (th : Option VlcThread) :
    Except Unit (StaticMutex × Option VlcThread × Bool) :=
  let sc := vlc_savecancel th
  let r := staticLockLoop waits m sc.2
  if r.2.2 then Except.ok (r.1, r.2.1, true)
  else
    match vlc_restorecancel sc.1 r.2.1 with
    | Except.ok th2 => Except.ok ({ r.1 with locked := true }, th2, false)
    | Except.error e => Except.error e

/-- The wait loop is inert for a caller whose `killable` flag is false:
no iteration lets cancellation take effect and thread and mutex state are
returned unchanged. -/
theorem staticLockLoop_unkillable (w : Nat) (m : StaticMutex) (t : VlcThread)
    (ht : t.killable = false) :
    staticLockLoop w m (some t) = (m, some t, false) := by
  induction w generalizing m with
  | zero => rfl
  | succ w ih =>
    cases m with
    | mk locked contention =>
      show (if (vlc_testcancel (some t)).terminated then _ else _) = _
      rw [vlc_testcancel, if_pos ht]
      show staticLockLoop w ⟨locked, contention + 1 - 1⟩ (some t) = _
      rw [Nat.add_sub_cancel]
      exact ih ⟨locked, contention⟩

/-- Failing input for the C4 counterexample: a killable caller with a kill
already pending, blocking on a locked static mutex for three waits. -/
def c4Thread : VlcThread := ⟨true, true, [], some 0, false, none⟩

/-- The locked static mutex the C4 counterexample blocks on. -/
def c4Mutex : StaticMutex := ⟨true, 0⟩

/-- C4 counterexample: the claim says a thread with a pending kill blocking
in the static-mutex wait loop has cancellation take effect there; in fact
the call returns normally — the final `false` says cancellation never took
effect during the three waits — with the lock acquired and the caller's
record unchanged, because vlc_savecancel cleared `killable` for the whole
loop. -/
theorem C4_counterexample :
    vlc_mutex_lock_static 3 c4Mutex (some c4Thread) =
      Except.ok (⟨true, 0⟩, some c4Thread, false) := by
  rfl

/-- C4 amended: vlc_mutex_lock on a static mutex is not a cancellation
point: it brackets the wait loop with vlc_savecancel/vlc_restorecancel, so
however long the caller blocks and even with a kill pending, cancellation
never takes effect inside the loop (it is deferred to the next cancellation
point); the call returns with the mutex locked, the contention count
restored and the caller's record exactly as before. -/
theorem C4_static_mutex_lock_defers_cancellation (waits : Nat)
    (m : StaticMutex) (t : VlcThread) :
    vlc_mutex_lock_static waits m (some t) =
      Except.ok (⟨true, m.contention⟩, some t, false) := by
  cases t with
  | mk killable killed cleaners data detached waitAddr =>
    cases m with
    | mk locked contention =>
      have h := staticLockLoop_unkillable waits ⟨locked, contention⟩
        ⟨false, killed, cleaners, data, detached, waitAddr⟩ rfl
      simp [vlc_mutex_lock_static, vlc_savecancel, h, vlc_restorecancel]

/-! ### Thread-local variables: last-error transparency -/

/-- Platform thread-local state seen by vlc_threadvar_get/set: the last-error
word and the TLS slot contents of the calling thread. -/
structure TlsEnv where
  lastError : Nat
  slot : Nat → Option Nat

/-- errno value ENOMEM, as returned by vlc_threadvar_set. -/
def ENOMEM : Nat := 12

/-- vlc_threadvar_set: saves GetLastError, calls TlsSetValue — whose success
flag is `setOk` and which leaves `osErr` in the last-error word — computes
`val` as `TlsSetValue(...) ? ENOMEM : 0` exactly as the source does, and
restores the saved last-error only when `val == 0`. -/
def vlc_threadvar_set (setOk : Bool) (osErr : Nat) (env : TlsEnv)
    (key value : Nat) : Nat × TlsEnv :=
  let saved := env.lastError
  let slot1 : Nat → Option Nat :=
    if setOk then fun k => if k = key then some value else env.slot k
    else env.slot
  let env1 : TlsEnv := ⟨osErr, slot1⟩
  let val : Nat := if setOk then ENOMEM else 0
  if val = 0 then (val, ⟨saved, env1.slot⟩) else (val, env1)

/-- vlc_threadvar_get: saves GetLastError, calls TlsGetValue — which leaves
`osErr` in the last-error word — and unconditionally restores the saved
value before returning the slot contents. -/
def vlc_threadvar_get (osErr : Nat) (env : TlsEnv) (key : Nat) :
    Option Nat × TlsEnv :=
  let saved := env.lastError
  let env1 : TlsEnv := ⟨osErr, env.slot⟩
  let value := env1.slot key
  (value, ⟨saved, env1.slot⟩)

/-- Environment for the C8 failing input: last-error 5 before the call. -/
def c8Env : TlsEnv := ⟨5, fun _ => none⟩

/-- C8, evaluated at the failing input: a vlc_threadvar_set whose underlying
TlsSetValue succeeds and leaves 99 in the last-error word returns ENOMEM
and leaves last-error at 99 instead of restoring the saved 5 — the
success/failure arms of `TlsSetValue(...) ? ENOMEM : 0` are inverted, so
the restore only runs on the failure path; vlc_threadvar_get, by contrast,
does restore the saved value. -/
theorem C8_set_clobbers_lasterror :
    (vlc_threadvar_set true 99 c8Env 0 1).2.lastError = 99 ∧
    (vlc_threadvar_set true 99 c8Env 0 1).1 = ENOMEM ∧
    (vlc_threadvar_set true 99 c8Env 0 1).2.slot 0 = some 1 ∧
    (vlc_threadvar_get 99 c8Env 0).2.lastError = 5 :=
  ⟨rfl, rfl, rfl, rfl⟩

/-! ### Thread-exit cleanup of thread-local slots -/

/-- One thread-local slot as the cleanup scan sees it: whether the slot
carries a destructor (`key->destroy != NULL`) and the calling thread's
current value for it.  The scan order (from vlc_threadvar_last following the
`prev` links) is the list order. -/
structure ThreadVarSlot where
  hasDestroy : Bool
  value : Option Nat
deriving DecidableEq, Repr

/-- Slot lookup by scan position. -/
def getSlot : List ThreadVarSlot → Nat → Option ThreadVarSlot
  | [], _ => none
  | s :: _, 0 => some s
  | _ :: rest, Nat.succ i => getSlot rest i

/-- The calling thread's value for the slot at scan position `i`. -/
def slotValue (tvs : List ThreadVarSlot) (i : Nat) : Option Nat :=
  match getSlot tvs i with
  | some s => s.value
  | none => none

/-- A slot the scan acts on: non-null value and non-null destructor. -/
def cleanableSlot (s : ThreadVarSlot) : Bool := s.value.isSome && s.hasDestroy

/-- The scan of one `retry` round: the first slot, in scan order, whose
value and destructor are both non-null, with its value. -/
def findCleanable : List ThreadVarSlot → Option (Nat × Nat)
  | [] => none
  | s :: rest =>
    match s.value with
    | some v =>
      if s.hasDestroy then some (0, v)
      else
        match findCleanable rest with
        | some iv => some (iv.1 + 1, iv.2)
        | none => none
    | none =>
      match findCleanable rest with
      | some iv => some (iv.1 + 1, iv.2)
      | none => none

/-- `vlc_threadvar_set(key, NULL)` on the slot at position `i`. -/
def setSlotNull : List ThreadVarSlot → Nat → List ThreadVarSlot
  | [], _ => []
  | s :: rest, 0 => ⟨s.hasDestroy, none⟩ :: rest
  | s :: rest, Nat.succ i => s :: setSlotNull rest i

/-- Number of slots the scan still has to act on. -/
def countCleanable : List ThreadVarSlot → Nat
  | [] => 0
  | s :: rest => (if cleanableSlot s then 1 else 0) + countCleanable rest

/-- One destructor invocation of the exit scan: the slot position, the old
value the destructor receives, and the registry state while it runs. -/
structure DtorCall where
  idx : Nat
  arg : Nat
  stateSeen : List ThreadVarSlot
deriving DecidableEq, Repr

/-- vlc_threadvars_cleanup: each `retry` round rescans from
vlc_threadvar_last, and for the first slot with a non-null value and
destructor it nulls the slot (vlc_threadvar_set(key, NULL)), invokes the
destructor with the old value and retries; the loop ends when a full scan
finds nothing.  Destructors are opaque to the model and do not write slots;
`fuel` bounds the rounds (the code relies on each round making progress). -/
def vlc_threadvars_cleanup : Nat → List ThreadVarSlot →
    List DtorCall × List ThreadVarSlot
  | 0, tvs => ([], tvs)
  | Nat.succ fuel, tvs =>
    match findCleanable tvs with
    | none => ([], tvs)
    | some iv =>
      (⟨iv.1, iv.2, setSlotNull tvs iv.1⟩ ::
          (vlc_threadvars_cleanup fuel (setSlotNull tvs iv.1)).1,
        (vlc_threadvars_cleanup fuel (setSlotNull tvs iv.1)).2)

/-- A slot is cleanable exactly when it holds a value and a destructor. -/
theorem cleanableSlot_true (s : ThreadVarSlot) (h : cleanableSlot s = true) :
    ∃ v, s.value = some v ∧ s.hasDestroy = true := by
  rw [cleanableSlot] at h
  rcases hv : s.value with _ | v
  · rw [hv] at h
    simp at h
  · refine ⟨v, rfl, ?_⟩
    rw [hv] at h
    simpa using h

/-- The scan stops at the head when the head is cleanable. -/
theorem findCleanable_cons_hit (s : ThreadVarSlot) (rest : List ThreadVarSlot)
    (v : Nat) (hv : s.value = some v) (hd : s.hasDestroy = true) :
    findCleanable (s :: rest) = some (0, v) := by
  simp [findCleanable, hv, hd]

/-- The scan skips a head without value or without destructor. -/
theorem findCleanable_cons_skip (s : ThreadVarSlot)
    (rest : List ThreadVarSlot) (hcs : cleanableSlot s = false) :
    findCleanable (s :: rest) =
      Option.map (fun iv => (iv.1 + 1, iv.2)) (findCleanable rest) := by
  rcases hv : s.value with _ | v
  · rw [findCleanable, hv]
    cases findCleanable rest <;> rfl
  · have hd : s.hasDestroy = false := by
      rw [cleanableSlot, hv] at hcs
      simpa using hcs
    rw [findCleanable, hv, hd]
    show (match findCleanable rest with
      | some iv => some (iv.1 + 1, iv.2)
      | none => none) = _
    cases findCleanable rest <;> rfl

/-- A found cleanable slot really is in the list, with that value and a
destructor. -/
theorem findCleanable_getSlot (tvs : List ThreadVarSlot) (i v : Nat)
    (h : findCleanable tvs = some (i, v)) :
    ∃ s, getSlot tvs i = some s ∧ s.value = some v ∧ s.hasDestroy = true := by
  induction tvs generalizing i v with
  | nil => cases h
  | cons s rest ih =>
    by_cases hcs : cleanableSlot s = true
    · obtain ⟨v0, hv, hd⟩ := cleanableSlot_true s hcs
      rw [findCleanable_cons_hit s rest v0 hv hd] at h
      cases h
      exact ⟨s, rfl, hv, hd⟩
    · rw [findCleanable_cons_skip s rest (by simpa using hcs)] at h
      cases hr : findCleanable rest with
      | none => rw [hr] at h; cases h
      | some iv =>
        rw [hr] at h
        cases h
        obtain ⟨s1, hs1, hval, hdes⟩ := ih iv.1 iv.2 (by rw [hr])
        exact ⟨s1, hs1, hval, hdes⟩

/-- When the scan finds nothing, no slot in the list is cleanable. -/
theorem findCleanable_none (tvs : List ThreadVarSlot)
    (h : findCleanable tvs = none) :
    ∀ i s, getSlot tvs i = some s → cleanableSlot s = false := by
  induction tvs with
  | nil => intro i s hs; cases i <;> cases hs
  | cons s0 rest ih =>
    intro i s hs
    by_cases hcs : cleanableSlot s0 = true
    · obtain ⟨v0, hv, hd⟩ := cleanableSlot_true s0 hcs
      rw [findCleanable_cons_hit s0 rest v0 hv hd] at h
      cases h
    · have hcs0 : cleanableSlot s0 = false := by simpa using hcs
      rw [findCleanable_cons_skip s0 rest hcs0] at h
      cases hr : findCleanable rest with
      | some iv => rw [hr] at h; cases h
      | none =>
        cases i with
        | zero =>
          cases hs
          exact hcs0
        | succ j => exact ih hr j s hs

/-- Nulling slot `i` only nulls its value there. -/
theorem getSlot_setSlotNull_self (tvs : List ThreadVarSlot) (i : Nat) :
    getSlot (setSlotNull tvs i) i =
      Option.map (fun s => ⟨s.hasDestroy, none⟩) (getSlot tvs i) := by
  induction tvs generalizing i with
  | nil => cases i <;> rfl
  | cons s rest ih =>
    cases i with
    | zero => rfl
    | succ j => exact ih j

/-- Nulling slot `i` leaves every other slot unchanged. -/
theorem getSlot_setSlotNull_other (tvs : List ThreadVarSlot) (i j : Nat)
    (h : j ≠ i) : getSlot (setSlotNull tvs i) j = getSlot tvs j := by
  induction tvs generalizing i j with
  | nil => cases i <;> cases j <;> rfl
  | cons s rest ih =>
    cases i with
    | zero => cases j with
      | zero => exact absurd rfl h
      | succ j0 => rfl
    | succ i0 => cases j with
      | zero => rfl
      | succ j0 => exact ih i0 j0 (by omega)

/-- After nulling slot `i`, the thread reads null from it. -/
theorem slotValue_setSlotNull_self (tvs : List ThreadVarSlot) (i : Nat) :
    slotValue (setSlotNull tvs i) i = none := by
  rw [slotValue, getSlot_setSlotNull_self]
  cases getSlot tvs i <;> rfl

/-- Nulling the slot the scan found removes exactly one cleanable slot. -/
theorem countCleanable_setSlotNull (tvs : List ThreadVarSlot) (i v : Nat)
    (h : findCleanable tvs = some (i, v)) :
    countCleanable (setSlotNull tvs i) + 1 = countCleanable tvs := by
  induction tvs generalizing i v with
  | nil => cases h
  | cons s rest ih =>
    by_cases hcs : cleanableSlot s = true
    · obtain ⟨v0, hv, hd⟩ := cleanableSlot_true s hcs
      rw [findCleanable_cons_hit s rest v0 hv hd] at h
      cases h
      show countCleanable (⟨s.hasDestroy, none⟩ :: rest) + 1 = _
      rw [countCleanable, countCleanable]
      have h1 : cleanableSlot ⟨s.hasDestroy, none⟩ = false := by
        simp [cleanableSlot]
      rw [h1, hcs]
      show 0 + countCleanable rest + 1 = 1 + countCleanable rest
      omega
    · have hcs0 : cleanableSlot s = false := by simpa using hcs
      rw [findCleanable_cons_skip s rest hcs0] at h
      cases hr : findCleanable rest with
      | none => rw [hr] at h; cases h
      | some iv =>
        rw [hr] at h
        cases h
        show countCleanable (s :: setSlotNull rest iv.1) + 1 = _
        rw [countCleanable, countCleanable]
        have := ih iv.1 iv.2 (by rw [hr])
        omega

/-- Reading a slot position gives the same value in two lists whose slot at
that position agrees. -/
theorem slotValue_congr (tvs1 tvs2 : List ThreadVarSlot) (j : Nat)
    (h : getSlot tvs1 j = getSlot tvs2 j) :
    slotValue tvs1 j = slotValue tvs2 j := by
  rw [slotValue, slotValue, h]

/-- Every destructor of the exit scan observes its own slot as null: the
slot is reset before the destructor runs. -/
theorem cleanup_stateSeen_self_null (fuel : Nat) (tvs : List ThreadVarSlot) :
    ∀ c ∈ (vlc_threadvars_cleanup fuel tvs).1,
      slotValue c.stateSeen c.idx = none := by
  induction fuel generalizing tvs with
  | zero => intro c hc; cases hc
  | succ fuel ih =>
    intro c hc
    cases hf : findCleanable tvs with
    | none =>
      simp only [vlc_threadvars_cleanup, hf] at hc
      cases hc
    | some iv =>
      simp only [vlc_threadvars_cleanup, hf] at hc
      cases hc with
      | head => exact slotValue_setSlotNull_self tvs iv.1
      | tail _ hm => exact ih (setSlotNull tvs iv.1) c hm

/-- Every destructor invocation of the exit scan comes from a slot whose
original value was the argument passed and whose destructor is non-null. -/
theorem cleanup_calls_from_slots (fuel : Nat) (tvs : List ThreadVarSlot) :
    ∀ c ∈ (vlc_threadvars_cleanup fuel tvs).1,
      ∃ s, getSlot tvs c.idx = some s ∧ s.value = some c.arg ∧
        s.hasDestroy = true := by
  induction fuel generalizing tvs with
  | zero => intro c hc; cases hc
  | succ fuel ih =>
    intro c hc
    cases hf : findCleanable tvs with
    | none =>
      simp only [vlc_threadvars_cleanup, hf] at hc
      cases hc
    | some iv =>
      simp only [vlc_threadvars_cleanup, hf] at hc
      cases hc with
      | head => exact findCleanable_getSlot tvs iv.1 iv.2 hf
      | tail _ hm =>
        obtain ⟨s1, hs1, hval, hdes⟩ := ih (setSlotNull tvs iv.1) c hm
        by_cases hidx : c.idx = iv.1
        · exfalso
          rw [hidx, getSlot_setSlotNull_self] at hs1
          cases hg : getSlot tvs iv.1 with
          | none => rw [hg] at hs1; cases hs1
          | some s0 =>
            rw [hg] at hs1
            cases hs1
            simp at hval
        · rw [getSlot_setSlotNull_other tvs iv.1 c.idx hidx] at hs1
          exact ⟨s1, hs1, hval, hdes⟩

/-- A slot already reading null stays null in every later destructor's view
of the registry and in the final state (destructors do not rewrite slots in
the model). -/
theorem cleanup_null_persists (fuel : Nat) (tvs : List ThreadVarSlot)
    (j : Nat) (hj : slotValue tvs j = none) :
    (∀ c ∈ (vlc_threadvars_cleanup fuel tvs).1,
      slotValue c.stateSeen j = none) ∧
    slotValue (vlc_threadvars_cleanup fuel tvs).2 j = none := by
  induction fuel generalizing tvs with
  | zero => exact ⟨fun c hc => absurd hc (List.not_mem_nil c), hj⟩
  | succ fuel ih =>
    cases hf : findCleanable tvs with
    | none =>
      constructor
      · intro c hc
        simp only [vlc_threadvars_cleanup, hf] at hc
        cases hc
      · simp only [vlc_threadvars_cleanup, hf]
        exact hj
    | some iv =>
      have hj1 : slotValue (setSlotNull tvs iv.1) j = none := by
        by_cases hji : j = iv.1
        · rw [hji]
          exact slotValue_setSlotNull_self tvs iv.1
        · rw [slotValue_congr (setSlotNull tvs iv.1) tvs j
            (getSlot_setSlotNull_other tvs iv.1 j hji)]
          exact hj
      have ihr := ih (setSlotNull tvs iv.1) hj1
      constructor
      · intro c hc
        simp only [vlc_threadvars_cleanup, hf] at hc
        cases hc with
        | head => exact hj1
        | tail _ hm => exact ihr.1 c hm
      · simp only [vlc_threadvars_cleanup, hf]
        exact ihr.2

/-- Destructors that run later in the same exit sequence read null from
every already-processed slot. -/
theorem cleanup_pairwise (fuel : Nat) (tvs : List ThreadVarSlot) :
    List.Pairwise (fun c c2 => slotValue c2.stateSeen c.idx = none)
      (vlc_threadvars_cleanup fuel tvs).1 := by
  induction fuel generalizing tvs with
  | zero => exact List.Pairwise.nil
  | succ fuel ih =>
    cases hf : findCleanable tvs with
    | none =>
      simp only [vlc_threadvars_cleanup, hf]
      exact List.Pairwise.nil
    | some iv =>
      simp only [vlc_threadvars_cleanup, hf]
      refine List.Pairwise.cons ?_ (ih (setSlotNull tvs iv.1))
      intro c2 hm
      exact (cleanup_null_persists fuel (setSlotNull tvs iv.1) iv.1
        (slotValue_setSlotNull_self tvs iv.1)).1 c2 hm

/-- A cleanable slot anywhere in the list makes the cleanable count
positive. -/
theorem countCleanable_pos (tvs : List ThreadVarSlot) (i : Nat)
    (s : ThreadVarSlot) (hs : getSlot tvs i = some s)
    (hc : cleanableSlot s = true) : 0 < countCleanable tvs := by
  induction tvs generalizing i with
  | nil => cases i <;> cases hs
  | cons s0 rest ih =>
    cases i with
    | zero =>
      cases hs
      rw [countCleanable, hc]
      show 0 < 1 + countCleanable rest
      omega
    | succ j =>
      have := ih j hs
      rw [countCleanable]
      omega

/-- With enough fuel, the exit scan invokes the destructor of every slot
whose value and destructor are non-null, with the slot's value. -/
theorem cleanup_complete (fuel : Nat) (tvs : List ThreadVarSlot)
    (hfuel : countCleanable tvs ≤ fuel) :
    ∀ i s, getSlot tvs i = some s → s.hasDestroy = true →
      ∀ v, s.value = some v →
        ∃ c, c ∈ (vlc_threadvars_cleanup fuel tvs).1 ∧
          c.idx = i ∧ c.arg = v := by
  induction fuel generalizing tvs with
  | zero =>
    intro i s hs hd v hv
    have hpos := countCleanable_pos tvs i s hs
      (by rw [cleanableSlot, hv, hd]; rfl)
    omega
  | succ fuel ih =>
    intro i s hs hd v hv
    cases hf : findCleanable tvs with
    | none =>
      have hno := findCleanable_none tvs hf i s hs
      rw [cleanableSlot, hv, hd] at hno
      simp at hno
    | some iv =>
      by_cases hidx : i = iv.1
      · obtain ⟨s0, hs0, hval0, hdes0⟩ := findCleanable_getSlot tvs iv.1 iv.2 hf
        rw [hidx, hs0] at hs
        cases hs
        refine ⟨⟨iv.1, iv.2, setSlotNull tvs iv.1⟩, ?_, hidx.symm, ?_⟩
        · simp only [vlc_threadvars_cleanup, hf]
          exact List.Mem.head _
        · show iv.2 = v
          rw [hval0] at hv
          cases hv
          rfl
      · have hs1 : getSlot (setSlotNull tvs iv.1) i = some s := by
          rw [getSlot_setSlotNull_other tvs iv.1 i hidx]
          exact hs
        have hcount : countCleanable (setSlotNull tvs iv.1) ≤ fuel := by
          have := countCleanable_setSlotNull tvs iv.1 iv.2 hf
          omega
        obtain ⟨c, hcm, hci, hca⟩ :=
          ih (setSlotNull tvs iv.1) hcount i s hs1 hd v hv
        refine ⟨c, ?_, hci, hca⟩
        simp only [vlc_threadvars_cleanup, hf]
        exact List.Mem.tail _ hcm

/-- C5: during the thread-exit cleanup scan, every slot whose current-thread
value is non-null and whose destructor is non-null is reset to null before
its destructor is invoked with the old value, so each destructor observes
its own slot as null and any destructor running later in the same exit
sequence reads null from already-processed slots; only slots with a
non-null value (and destructor) get a destructor call, the rest are
skipped.  `fuel` must cover the number of cleanable slots, which is how
many rounds the `retry` loop of the code runs when destructors make
progress. -/
theorem C5_cleanup_resets_slot_before_destructor (fuel : Nat)
    (tvs : List ThreadVarSlot) (hfuel : countCleanable tvs ≤ fuel) :
    (∀ c ∈ (vlc_threadvars_cleanup fuel tvs).1,
      slotValue c.stateSeen c.idx = none) ∧
    (∀ c ∈ (vlc_threadvars_cleanup fuel tvs).1,
      ∃ s, getSlot tvs c.idx = some s ∧ s.value = some c.arg ∧
        s.hasDestroy = true) ∧
    List.Pairwise (fun c c2 => slotValue c2.stateSeen c.idx = none)
      (vlc_threadvars_cleanup fuel tvs).1 ∧
    (∀ i s, getSlot tvs i = some s → s.hasDestroy = true →
      ∀ v, s.value = some v →
        ∃ c, c ∈ (vlc_threadvars_cleanup fuel tvs).1 ∧
          c.idx = i ∧ c.arg = v) :=
  ⟨cleanup_stateSeen_self_null fuel tvs, cleanup_calls_from_slots fuel tvs,
    cleanup_pairwise fuel tvs, cleanup_complete fuel tvs hfuel⟩

/-- Registry for the C5 witness: slot 0 cleanable with value 5, slot 1 has
value 6 but no destructor, slot 2 a destructor but no value, slot 3
cleanable with value 7. -/
def c5Tvs : List ThreadVarSlot :=
  [⟨true, some 5⟩, ⟨false, some 6⟩, ⟨true, none⟩, ⟨true, some 7⟩]

/-- C5 witness: on the concrete registry, with fuel 2 covering its two
cleanable slots, all four conclusions hold. -/
theorem C5_witness :
    (∀ c ∈ (vlc_threadvars_cleanup 2 c5Tvs).1,
      slotValue c.stateSeen c.idx = none) ∧
    (∀ c ∈ (vlc_threadvars_cleanup 2 c5Tvs).1,
      ∃ s, getSlot c5Tvs c.idx = some s ∧ s.value = some c.arg ∧
        s.hasDestroy = true) ∧
    List.Pairwise (fun c c2 => slotValue c2.stateSeen c.idx = none)
      (vlc_threadvars_cleanup 2 c5Tvs).1 ∧
    (∀ i s, getSlot c5Tvs i = some s → s.hasDestroy = true →
      ∀ v, s.value = some v →
        ∃ c, c ∈ (vlc_threadvars_cleanup 2 c5Tvs).1 ∧
          c.idx = i ∧ c.arg = v) :=
  C5_cleanup_resets_slot_before_destructor 2 c5Tvs (by decide)

/-! ### Clock-source selection -/

/-- The function mdate_selected can point to: mdate_default plus the five
named sources of SelectClockSource. -/
inductive ClockSel where
  | cdefault
  | cinterrupt
  | ctick
  | cmultimedia
  | cperf
  | cwall
deriving DecidableEq, Repr

/-- Process clock state: the current mdate_selected pointer and the
clock_used_early flag, both guarded by clock_lock. -/
structure ClockState where
  selected : ClockSel
  usedEarly : Bool
deriving DecidableEq, Repr

/-- How SelectClockSource can abort: the `assert(!clock_used_early)`
failure, or `abort()` on an unknown clock-source name. -/
inductive ClockErr where
  | assertUsedEarly
  | invalidSource
deriving DecidableEq, Repr

/-- The strcmp chain of SelectClockSource over the clock-source name. -/
def parseClockSource (name : String) : Option ClockSel :=
  if name = "interrupt" then some ClockSel.cinterrupt
  else if name = "tick" then some ClockSel.ctick
  else if name = "multimedia" then some ClockSel.cmultimedia
  else if name = "perf" then some ClockSel.cperf
  else if name = "wall" then some ClockSel.cwall
  else none

/-- SelectClockSource under clock_lock: if a source other than mdate_default
is already installed it returns at once without change; otherwise it asserts
that the default source was not already used early, resolves the name (the
`clock-source` variable `str`, defaulting to "multimedia" on desktop
builds) and installs the matching source, aborting on an unknown name. -/
def SelectClockSource (str : Option String) (s : ClockState) :
    Except ClockErr ClockState :=
  if s.selected ≠ ClockSel.cdefault then Except.ok s
  else if s.usedEarly then Except.error ClockErr.assertUsedEarly
  else
    match parseClockSource (str.getD "multimedia") with
    | some sel => Except.ok { s with selected := sel }
    | none => Except.error ClockErr.invalidSource

/-- mdate dispatches through mdate_selected: the still-default pointer runs
mdate_default, which records the early use and reads the performance
counter; any installed source is used as-is and changes no state. -/
def mdate (s : ClockState) : ClockSel × ClockState :=
  match s.selected with
  | ClockSel.cdefault => (ClockSel.cperf, { s with usedEarly := true })
  | sel => (sel, s)

/-- C6: once a SelectClockSource call has completed and installed a
non-default source, every later SelectClockSource call returns without
changing the selected source, and mdate dispatches to that one fixed source
without touching the state; explicit selection on a state whose default
source was already used early fails the `assert(!clock_used_early)`
assertion instead of being applied. -/
theorem C6_clock_source_selected_once (s s1 : ClockState)
    (str str2 : Option String)
    (h1 : SelectClockSource str s = Except.ok s1)
    (h2 : s1.selected ≠ ClockSel.cdefault) :
    SelectClockSource str2 s1 = Except.ok s1 ∧
    mdate s1 = (s1.selected, s1) ∧
    (∀ s2, s2.selected = ClockSel.cdefault → s2.usedEarly = true →
      SelectClockSource str2 s2 = Except.error ClockErr.assertUsedEarly) := by
  refine ⟨?_, ?_, ?_⟩
  · rw [SelectClockSource, if_pos h2]
  · rcases s1 with ⟨sel, used⟩
    cases sel with
    | cdefault => exact absurd rfl h2
    | cinterrupt => rfl
    | ctick => rfl
    | cmultimedia => rfl
    | cperf => rfl
    | cwall => rfl
  · intro s2 h2a h2b
    rw [SelectClockSource, if_neg (fun hn => hn h2a), if_pos h2b]

/-- C6 witness: after installing the "perf" source on a fresh state, a
second call (with no configured name) changes nothing, mdate dispatches to
the installed source, and selection on an early-used default state fails
the assertion. -/
theorem C6_witness :
    SelectClockSource none ⟨ClockSel.cperf, false⟩ =
      Except.ok ⟨ClockSel.cperf, false⟩ ∧
    mdate ⟨ClockSel.cperf, false⟩ =
      ((⟨ClockSel.cperf, false⟩ : ClockState).selected,
        ⟨ClockSel.cperf, false⟩) ∧
    (∀ s2, s2.selected = ClockSel.cdefault → s2.usedEarly = true →
      SelectClockSource none s2 = Except.error ClockErr.assertUsedEarly) :=
  C6_clock_source_selected_once ⟨ClockSel.cdefault, false⟩
    ⟨ClockSel.cperf, false⟩ (some "perf") none rfl (by decide)

/-! ### Timers: vlc_timer_schedule -/

/-- One `struct vlc_timer` together with its native timer-queue timers:
`handle` is the stored handle (INVALID_HANDLE_VALUE = `none`), `live` the
native timers currently armed for this record — each an id with the
converted due delay and period in milliseconds — and `nextId` a supply of
fresh native handles. -/
structure TimerState where
  handle : Option Nat
  live : List (Nat × Int × Int)
  nextId : Nat
deriving DecidableEq, Repr

/-- The leading block of vlc_timer_schedule: if a handle is stored,
DeleteTimerQueueTimer cancels that native timer and the handle is reset to
INVALID_HANDLE_VALUE. -/
def timerDisarm (s : TimerState) : TimerState :=
  match s.handle with
  | some h => ⟨none, s.live.filter (fun e => e.1 != h), s.nextId⟩
  | none => s

/-- vlc_timer_schedule: always runs the disarm block first; a zero `value`
then just returns (disarm); otherwise an absolute deadline is converted to
a relative delay via mdate with negative delays clamped to zero, delay and
period are rounded up to milliseconds, and CreateTimerQueueTimer arms one
new native timer whose handle is stored. -/
def vlc_timer_schedule (s : TimerState) (absolute : Bool)
    (value interval now : Int) : TimerState :=
  if value = 0 then timerDisarm s
  else
    ⟨some (timerDisarm s).nextId,
      (timerDisarm s).live ++
        [((timerDisarm s).nextId,
          ((if absolute then (if value - now < 0 then 0 else value - now)
            else value) + 999) / 1000,
          (interval + 999) / 1000)],
      (timerDisarm s).nextId + 1⟩

/-- At most one native timer is live per record, it is the stored handle,
and its id is below the fresh supply. -/
def timerInv (s : TimerState) : Bool :=
  match s.handle, s.live with
  | none, [] => true
  | some h, [e] => e.1 == h && Nat.blt h s.nextId
  | _, _ => false

/-- Under the invariant, the disarm block leaves no live native timer. -/
theorem timerDisarm_clears (s : TimerState) (hinv : timerInv s = true) :
    timerDisarm s = ⟨none, [], s.nextId⟩ := by
  rcases s with ⟨handle, live, nextId⟩
  cases handle with
  | none =>
    cases live with
    | nil => rfl
    | cons e rest => simp [timerInv] at hinv
  | some h =>
    cases live with
    | nil => simp [timerInv] at hinv
    | cons e rest =>
      cases rest with
      | nil =>
        have he : e.1 = h := by
          simp [timerInv] at hinv
          exact hinv.1
        show TimerState.mk none (List.filter (fun e => e.1 != h) [e]) nextId
          = ⟨none, [], nextId⟩
        rw [List.filter]
        have : (e.1 != h) = false := by
          rw [he]
          simp
        rw [this]
        rfl
      | cons e2 rest2 => simp [timerInv] at hinv

/-- Under the invariant the stored handle is below the fresh supply. -/
theorem timerInv_handle_lt (s : TimerState) (hinv : timerInv s = true)
    (h : Nat) (hh : s.handle = some h) : h < s.nextId := by
  rcases s with ⟨handle, live, nextId⟩
  cases hh
  cases live with
  | nil => simp [timerInv] at hinv
  | cons e rest =>
    cases rest with
    | nil =>
      simp [timerInv] at hinv
      exact hinv.2
    | cons e2 rest2 => simp [timerInv] at hinv

/-- C7: vlc_timer_schedule always cancels any previously armed native timer
first; with `value == 0` it only disarms, leaving no live native timer;
otherwise exactly one native timer — a fresh one, never the old handle — is
left live, scheduled from the new value; so at most one native timer is
live per record at any time and rearming before the first firing yields
exactly one firing at the new schedule. -/
theorem C7_timer_schedule_single_native_timer (s : TimerState)
    (absolute : Bool) (value interval now : Int)
    (hinv : timerInv s = true) :
    timerInv (vlc_timer_schedule s absolute value interval now) = true ∧
    (value = 0 →
      (vlc_timer_schedule s absolute value interval now).handle = none ∧
      (vlc_timer_schedule s absolute value interval now).live = []) ∧
    (value ≠ 0 →
      (vlc_timer_schedule s absolute value interval now).live =
        [(s.nextId,
          ((if absolute then (if value - now < 0 then 0 else value - now)
            else value) + 999) / 1000,
          (interval + 999) / 1000)] ∧
      (vlc_timer_schedule s absolute value interval now).handle =
        some s.nextId ∧
      (∀ h, s.handle = some h → h ≠ s.nextId)) := by
  have hd := timerDisarm_clears s hinv
  by_cases hval : value = 0
  · rw [vlc_timer_schedule, if_pos hval, hd]
    refine ⟨rfl, fun _ => ⟨rfl, rfl⟩, fun hne => absurd hval hne⟩
  · rw [vlc_timer_schedule, if_neg hval, hd]
    refine ⟨?_, fun h0 => absurd h0 hval, fun _ => ⟨rfl, rfl, ?_⟩⟩
    · simp [timerInv, Nat.blt]
    · intro h hh
      have := timerInv_handle_lt s hinv h hh
      omega

/-- Timer record for the C7 witness: a 50 ms one-shot (handle 0) is
currently armed. -/
def c7Timer : TimerState := ⟨some 0, [(0, 50, 0)], 1⟩

/-- C7 witness: rearming the armed 50 ms one-shot as a relative 200000 µs
one-shot cancels the old native timer and leaves exactly the fresh 200 ms
one, preserving the invariant. -/
theorem C7_witness :
    timerInv (vlc_timer_schedule c7Timer false 200000 0 0) = true ∧
    ((200000 : Int) = 0 →
      (vlc_timer_schedule c7Timer false 200000 0 0).handle = none ∧
      (vlc_timer_schedule c7Timer false 200000 0 0).live = []) ∧
    ((200000 : Int) ≠ 0 →
      (vlc_timer_schedule c7Timer false 200000 0 0).live =
        [(c7Timer.nextId,
          ((if false then (if (200000 : Int) - 0 < 0 then 0 else 200000 - 0)
            else 200000) + 999) / 1000,
          ((0 : Int) + 999) / 1000)] ∧
      (vlc_timer_schedule c7Timer false 200000 0 0).handle =
        some c7Timer.nextId ∧
      (∀ h, c7Timer.handle = some h → h ≠ c7Timer.nextId)) :=
  C7_timer_schedule_single_native_timer c7Timer false 200000 0 0 (by decide)

end Win32Thread
